import Mathlib

/-!
Shallow embedding of the request dispatcher and response encoders of the
nsncd name-service daemon (`src/handlers.rs`), together with a reference
wire-format decoder, and proofs of the specified properties.

Bytes are modelled as `List Nat`; machine integers are `Nat` with explicit
`% 2 ^ 32` where wrap-around matters.  Fallible Rust code (`Result`, `?`)
becomes `Except`.
-/

namespace Nsncd

/-- A byte string (each element is one byte). -/
abbrev Bytes := List Nat

/-- Modelled from the spec: the protocol version marker (`protocol::VERSION`;
`protocol.rs` is not under `src/`).  The value is the classic nscd protocol
version; no theorem below depends on the concrete value. -/
def VERSION : Nat := 2

/-- Models `i32::MAX`, the largest value accepted by the wire format's signed
32-bit length fields. -/
def I32MAX : Nat := 2147483647

/-- Native-endian 4-byte encoding of a 32-bit value (little-endian layout;
values are already reduced below `2 ^ 32` or reduced here). -/
def i32le (n : Nat) : Bytes :=
  [n % 256, n / 256 % 256, n / 65536 % 256, n / 16777216 % 256]

/-- The error taxonomy of the core (spec §7).  `anyhow` erases error types in
the source; we keep the taxonomy as tags. -/
inductive HandlerError
  | malformedKey
  | lookupFailure
  | invalidFieldContent
  | fieldTooLarge
deriving DecidableEq, Repr

instance exceptDecEq {ε α : Type} [DecidableEq ε] [DecidableEq α] :
    DecidableEq (Except ε α) := fun x y =>
  match x, y with
  | .ok a, .ok b =>
    if h : a = b then .isTrue (by rw [h]) else .isFalse (fun hh => h (Except.ok.inj hh))
  | .error e, .error f =>
    if h : e = f then .isTrue (by rw [h]) else .isFalse (fun hh => h (Except.error.inj hh))
  | .ok _, .error _ => .isFalse (fun hh => Except.noConfusion hh)
  | .error _, .ok _ => .isFalse (fun hh => Except.noConfusion hh)

/-- A user (passwd) record as produced by the identity database
(`nix::unistd::User`): `name` is a Rust `String` (arbitrary bytes as far as
nul bytes are concerned), `passwd` and `gecos` are `CString`s (their
`to_bytes_with_nul` is the field plus one nul), `dir` and `shell` are paths
(arbitrary `OsStr` bytes), `uid` and `gid` are `u32` values. -/
structure User where
  name : Bytes
  passwd : Bytes
  uid : Nat
  gid : Nat
  gecos : Bytes
  dir : Bytes
  shell : Bytes
deriving DecidableEq, Repr

/-- A group record (`nix::unistd::Group`).  The identity layer does not
expose the password (see the comment in `serialize_group`); the `passwd`
field here carries the spec-level record's password, which the encoder
never reads. -/
structure Group where
  name : Bytes
  passwd : Bytes
  gid : Nat
  mem : List Bytes
deriving DecidableEq, Repr

/-- Models `CString::new`: fails (`NulError`, surfaced as
`invalidFieldContent`) iff the bytes contain an embedded nul; otherwise
returns the bytes. -/
def cstringNew (s : Bytes) : Except HandlerError Bytes :=
  if 0 ∈ s then .error .invalidFieldContent else .ok s

/-- Models `usize::try_into::<i32>()`: fails (`fieldTooLarge`) iff the value
exceeds `i32::MAX`. -/
def tryIntoI32 (n : Nat) : Except HandlerError Nat :=
  if n ≤ I32MAX then .ok n else .error .fieldTooLarge

/-- Modelled from the spec (§6): the user response header
(`protocol::PwResponseHeader`), field order as asserted byte-for-byte by the
tests in `src/handlers.rs`. -/
structure PwResponseHeader where
  version : Nat
  found : Nat
  pw_name_len : Nat
  pw_passwd_len : Nat
  pw_uid : Nat
  pw_gid : Nat
  pw_gecos_len : Nat
  pw_dir_len : Nat
  pw_shell_len : Nat
deriving DecidableEq, Repr

/-- Modelled from the spec (§6): the header's fixed native-endian byte
layout (`as_slice`). -/
def PwResponseHeader.as_slice (h : PwResponseHeader) : Bytes :=
  i32le h.version ++ (i32le h.found ++ (i32le h.pw_name_len ++
    (i32le h.pw_passwd_len ++ (i32le h.pw_uid ++ (i32le h.pw_gid ++
    (i32le h.pw_gecos_len ++ (i32le h.pw_dir_len ++ i32le h.pw_shell_len)))))))

/-- Models `PwResponseHeader::default()`: every field zero. -/
def PwResponseHeader.default : PwResponseHeader := ⟨0, 0, 0, 0, 0, 0, 0, 0, 0⟩

/-- Modelled from the spec (§6): the group response header
(`protocol::GrResponseHeader`). -/
structure GrResponseHeader where
  version : Nat
  found : Nat
  gr_name_len : Nat
  gr_passwd_len : Nat
  gr_gid : Nat
  gr_mem_cnt : Nat
deriving DecidableEq, Repr

/-- Modelled from the spec (§6): the group header's byte layout. -/
def GrResponseHeader.as_slice (h : GrResponseHeader) : Bytes :=
  i32le h.version ++ (i32le h.found ++ (i32le h.gr_name_len ++
    (i32le h.gr_passwd_len ++ (i32le h.gr_gid ++ i32le h.gr_mem_cnt))))

/-- Models `GrResponseHeader::default()`: every field zero. -/
def GrResponseHeader.default : GrResponseHeader := ⟨0, 0, 0, 0, 0, 0⟩

/-- The function `serialize_user` (`src/handlers.rs`): serialize a present or absent
user record.  Each Rust `?` is an `Except` bind. -/
def serialize_user : Option User → Except HandlerError Bytes
  | none => .ok PwResponseHeader.default.as_slice
  | some data => do
    let name ← cstringNew data.name
    let name_bytes := name ++ [0]
    let passwd_bytes := data.passwd ++ [0]
    let gecos_bytes := data.gecos ++ [0]
    let dir ← cstringNew data.dir
    let dir_bytes := dir ++ [0]
    let shell ← cstringNew data.shell
    let shell_bytes := shell ++ [0]
    let pw_name_len ← tryIntoI32 name_bytes.length
    let pw_passwd_len ← tryIntoI32 passwd_bytes.length
    let pw_gecos_len ← tryIntoI32 gecos_bytes.length
    let pw_dir_len ← tryIntoI32 dir_bytes.length
    let pw_shell_len ← tryIntoI32 shell_bytes.length
    let header : PwResponseHeader :=
      ⟨VERSION, 1, pw_name_len, pw_passwd_len, data.uid, data.gid,
        pw_gecos_len, pw_dir_len, pw_shell_len⟩
    Except.ok (header.as_slice ++ (name_bytes ++ (passwd_bytes ++
      (gecos_bytes ++ (dir_bytes ++ shell_bytes)))))

/-- The function `serialize_group` (`src/handlers.rs`): serialize a present or absent
group record.  The password is always the fixed placeholder `"x"` because
the identity layer does not provide one. -/
def serialize_group : Option Group → Except HandlerError Bytes
  | none => .ok GrResponseHeader.default.as_slice
  | some data => do
    let name ← cstringNew data.name
    let name_bytes := name ++ [0]
    let passwd_bytes : Bytes := [120, 0]
    let members ← data.mem.mapM cstringNew
    let members_bytes := members.map (fun m => m ++ [0])
    let gr_name_len ← tryIntoI32 name_bytes.length
    let gr_passwd_len ← tryIntoI32 passwd_bytes.length
    let gr_mem_cnt ← tryIntoI32 data.mem.length
    let header : GrResponseHeader :=
      ⟨VERSION, 1, gr_name_len, gr_passwd_len, data.gid, gr_mem_cnt⟩
    let memLens ← members_bytes.mapM (fun m => tryIntoI32 m.length)
    Except.ok (header.as_slice ++ ((memLens.map i32le).flatten ++
      (name_bytes ++ (passwd_bytes ++ members_bytes.flatten))))

/-- Modelled from the spec (§6): the closed request-type enumeration
(`protocol::RequestType`), one constructor per arm of the `match` in
`handle_request`. -/
inductive RequestType
  | GETPWBYUID | GETPWBYNAME | GETGRBYGID | GETGRBYNAME
  | GETHOSTBYADDR | GETHOSTBYADDRv6 | GETHOSTBYNAME | GETHOSTBYNAMEv6
  | SHUTDOWN | GETSTAT | INVALIDATE
  | GETFDPW | GETFDGR | GETFDHST | GETAI
  | GETSERVBYNAME | GETSERVBYPORT | GETFDSERV | GETFDNETGR
  | GETNETGRENT | INNETGR | LASTREQ | INITGROUPS
deriving DecidableEq, Repr

/-- The four request types the dispatcher implements; the rest are stubs. -/
def RequestType.isImplemented : RequestType → Bool
  | .GETPWBYUID | .GETPWBYNAME | .GETGRBYGID | .GETGRBYNAME => true
  | _ => false

/-- Modelled from the spec (§3): a decoded request, a type tag plus the raw
key bytes (`protocol::Request`). -/
structure Request where
  ty : RequestType
  key : Bytes

/-- Models `CStr::from_bytes_with_nul`: succeeds iff the bytes hold exactly
one nul, in last position; returns the bytes without that nul
(`to_bytes`).  The failure is a key-shape error (`malformedKey`). -/
def cstrFromBytesWithNul (key : Bytes) : Except HandlerError Bytes :=
  if key.getLast? = some 0 ∧ ¬ 0 ∈ key.dropLast then .ok key.dropLast
  else .error .malformedKey

/-- One ASCII decimal digit, as the `atoi` crate reads it. -/
def asciiDigit (b : Nat) : Option Nat :=
  if 48 ≤ b ∧ b ≤ 57 then some (b - 48) else none

/-- The accumulating loop of the `atoi` crate's `from_radix_10_checked`
(atoi 0.4+): consume leading digits with `checked_mul`/`checked_add`
`u32` arithmetic — the accumulator becomes `none` on overflow and stays
`none` — and stop at the first non-digit. -/
def atoiLoop (acc : Option Nat) : Bytes → Option Nat
  | [] => acc
  | b :: rest =>
    match asciiDigit b with
    | some d =>
      atoiLoop (acc.bind fun a =>
        if a * 10 + d ≤ 4294967295 then some (a * 10 + d) else none) rest
    | none => acc

/-- Models `atoi::atoi::<u32>` (checked, as in atoi 0.4+): `none` iff the
input does not start with an ASCII digit or the maximal leading digit run
overflows `u32`; otherwise the value of that digit run (any bytes after
it are ignored). -/
def atoi_u32 : Bytes → Option Nat
  | [] => none
  | b :: rest =>
    match asciiDigit b with
    | some d => atoiLoop (some d) rest
    | none => none

/-- Models `atoi(...).context(...)?` in the dispatcher: a failed parse is a
malformed-key error. -/
def parse_u32 (b : Bytes) : Except HandlerError Nat :=
  match atoi_u32 b with
  | some u => .ok u
  | none => .error .malformedKey

/-- Is `b` a UTF-8 continuation byte (`0x80–0xBF`)? -/
def isCont (b : Nat) : Bool := 128 ≤ b && b ≤ 191

/-- Fuel-driven worker for the UTF-8 validity check (the fuel only makes
the recursion structural; it is always at least the list length). -/
def validUtf8Fuel : Nat → Bytes → Bool
  | _, [] => true
  | 0, _ :: _ => false
  | fuel + 1, b :: rest =>
    if b ≤ 127 then validUtf8Fuel fuel rest
    else if 194 ≤ b && b ≤ 223 then
      match rest with
      | c :: r => isCont c && validUtf8Fuel fuel r
      | [] => false
    else if b = 224 then
      match rest with
      | c :: d :: r => (160 ≤ c && c ≤ 191) && (isCont d && validUtf8Fuel fuel r)
      | _ => false
    else if (225 ≤ b && b ≤ 236) || b = 238 || b = 239 then
      match rest with
      | c :: d :: r => isCont c && (isCont d && validUtf8Fuel fuel r)
      | _ => false
    else if b = 237 then
      match rest with
      | c :: d :: r => (128 ≤ c && c ≤ 159) && (isCont d && validUtf8Fuel fuel r)
      | _ => false
    else if b = 240 then
      match rest with
      | c :: d :: e :: r => (144 ≤ c && c ≤ 191) && (isCont d && (isCont e && validUtf8Fuel fuel r))
      | _ => false
    else if 241 ≤ b && b ≤ 243 then
      match rest with
      | c :: d :: e :: r => isCont c && (isCont d && (isCont e && validUtf8Fuel fuel r))
      | _ => false
    else if b = 244 then
      match rest with
      | c :: d :: e :: r => (128 ≤ c && c ≤ 143) && (isCont d && (isCont e && validUtf8Fuel fuel r))
      | _ => false
    else false

/-- Models the UTF-8 validity check behind `CStr::to_str`
(RFC 3629 well-formedness). -/
def validUtf8 (l : Bytes) : Bool := validUtf8Fuel l.length l

/-- Models `CStr::to_str` in the by-name arms: the UTF-8 check on the key's
content; failure is a malformed-key error. -/
def to_str (b : Bytes) : Except HandlerError Bytes :=
  if validUtf8 b then .ok b else .error .malformedKey

/-- The identity database (spec §2, an external collaborator): the four
fallible lookup functions `User::from_uid`, `User::from_name`,
`Group::from_gid`, `Group::from_name`. -/
structure Db where
  userByUid : Nat → Except Unit (Option User)
  userByName : Bytes → Except Unit (Option User)
  groupByGid : Nat → Except Unit (Option Group)
  groupByName : Bytes → Except Unit (Option Group)

/-- A failed identity-database query propagates as `lookupFailure`
(spec §7). -/
def liftLookup {α : Type} : Except Unit α → Except HandlerError α
  | .ok a => .ok a
  | .error _ => .error .lookupFailure

/-- The function `handle_request` (`src/handlers.rs`): dispatch on the request type,
validate the key, perform the lookup, serialize the optional result; the
nineteen unimplemented request types answer with an empty buffer. -/
def handle_request (db : Db) (request : Request) : Except HandlerError Bytes :=
  match request.ty with
  | .GETPWBYUID => do
    let key ← cstrFromBytesWithNul request.key
    let uid ← parse_u32 key
    let user ← liftLookup (db.userByUid uid)
    serialize_user user
  | .GETPWBYNAME => do
    let key ← cstrFromBytesWithNul request.key
    let s ← to_str key
    let user ← liftLookup (db.userByName s)
    serialize_user user
  | .GETGRBYGID => do
    let key ← cstrFromBytesWithNul request.key
    let gid ← parse_u32 key
    let group ← liftLookup (db.groupByGid gid)
    serialize_group group
  | .GETGRBYNAME => do
    let key ← cstrFromBytesWithNul request.key
    let s ← to_str key
    let group ← liftLookup (db.groupByName s)
    serialize_group group
  | .GETHOSTBYADDR | .GETHOSTBYADDRv6 | .GETHOSTBYNAME | .GETHOSTBYNAMEv6
  | .SHUTDOWN | .GETSTAT | .INVALIDATE
  | .GETFDPW | .GETFDGR | .GETFDHST | .GETAI
  | .GETSERVBYNAME | .GETSERVBYPORT | .GETFDSERV | .GETFDNETGR
  | .GETNETGRENT | .INNETGR | .LASTREQ | .INITGROUPS => .ok []

/-- Read a native-endian 32-bit value at byte offset `off` (reference
decoder building block; out-of-range bytes read as zero). -/
def readI32 (buf : Bytes) (off : Nat) : Nat :=
  buf.getD off 0 + 256 * buf.getD (off + 1) 0 +
    65536 * buf.getD (off + 2) 0 + 16777216 * buf.getD (off + 3) 0

/-- Modelled from the spec (§6): the reference decoder for a found user
response: read the header, slice the five declared null-terminated
segments, strip each terminator. -/
def decode_user (buf : Bytes) : Option User :=
  if readI32 buf 4 = 1 then
    let nl := readI32 buf 8
    let pl := readI32 buf 12
    let uid := readI32 buf 16
    let gid := readI32 buf 20
    let gl := readI32 buf 24
    let dl := readI32 buf 28
    let sl := readI32 buf 32
    let payload := buf.drop 36
    let name := (payload.take nl).dropLast
    let rest1 := payload.drop nl
    let passwd := (rest1.take pl).dropLast
    let rest2 := rest1.drop pl
    let gecos := (rest2.take gl).dropLast
    let rest3 := rest2.drop gl
    let dir := (rest3.take dl).dropLast
    let rest4 := rest3.drop dl
    let shell := (rest4.take sl).dropLast
    some ⟨name, passwd, uid, gid, gecos, dir, shell⟩
  else none

/-- Slice a byte string into consecutive segments of the given lengths
(reference decoder building block for the member array). -/
def extractSegs : List Nat → Bytes → List Bytes
  | [], _ => []
  | l :: ls, b => b.take l :: extractSegs ls (b.drop l)

/-- Modelled from the spec (§6): the reference decoder for a found group
response: read the header, the per-member length array, then slice the
payload segments and strip each terminator. -/
def decode_group (buf : Bytes) : Option Group :=
  if readI32 buf 4 = 1 then
    let nl := readI32 buf 8
    let pl := readI32 buf 12
    let gid := readI32 buf 16
    let cnt := readI32 buf 20
    let lens := (List.range cnt).map (fun i => readI32 buf (24 + 4 * i))
    let payload := buf.drop (24 + 4 * cnt)
    let name := (payload.take nl).dropLast
    let rest1 := payload.drop nl
    let passwd := (rest1.take pl).dropLast
    let rest2 := rest1.drop pl
    let mems := (extractSegs lens rest2).map List.dropLast
    some ⟨name, passwd, gid, mems⟩
  else none

/-- The byte buffer produced for a found user record (header with the
protocol version, found = 1, the five lengths including terminators and the
two raw ids, then the five null-terminated fields in wire order). -/
def pwBody (u : User) : Bytes :=
  PwResponseHeader.as_slice
      ⟨VERSION, 1, u.name.length + 1, u.passwd.length + 1, u.uid, u.gid,
        u.gecos.length + 1, u.dir.length + 1, u.shell.length + 1⟩ ++
    ((u.name ++ [0]) ++ ((u.passwd ++ [0]) ++ ((u.gecos ++ [0]) ++
      ((u.dir ++ [0]) ++ (u.shell ++ [0])))))

/-- The byte buffer produced for a found group record (header, one 4-byte
length per member in input order, then name, the placeholder password
`"x"`, and the members in input order, all null-terminated). -/
def grBody (g : Group) : Bytes :=
  GrResponseHeader.as_slice ⟨VERSION, 1, g.name.length + 1, 2, g.gid, g.mem.length⟩ ++
    ((((g.mem.map fun m => m.length + 1).map i32le).flatten) ++
      ((g.name ++ [0]) ++ (([120, 0] : Bytes) ++ (g.mem.map fun m => m ++ [0]).flatten)))

/-- A small concrete user record used to instantiate theorems with
hypotheses. -/
def uEx : User := ⟨[97], [112], 5, 6, [103], [47, 104], [47, 115]⟩

/-- A small concrete group record (members deliberately not sorted). -/
def gEx : Group := ⟨[103, 114], [115], 7, [[98], [97], [99]]⟩

/-- A user record whose name consists of a single nul byte (a legal Rust
`String`), with nul-free home directory and shell. -/
def uNul : User := ⟨[0], [], 0, 0, [], [47], [47]⟩

/-- A user record whose name holds an embedded nul and whose home
directory is one byte longer than the wire format's length field can
carry. -/
def uBig : User := ⟨[0], [], 0, 0, [], List.replicate 2147483648 47, []⟩

/-- An identity database in which no lookup matches and none fails. -/
def dbEmpty : Db :=
  ⟨fun _ => .ok none, fun _ => .ok none, fun _ => .ok none, fun _ => .ok none⟩

/-- An identity database that knows exactly one user, at uid 1. -/
def dbU1 : Db :=
  ⟨fun u => if u = 1 then .ok (some uEx) else .ok none,
   fun _ => .ok none, fun _ => .ok none, fun _ => .ok none⟩

theorem bind_guard {α β : Type} (c : Prop) [Decidable c] (e : HandlerError) (v : α)
    (f : α → Except HandlerError β) :
    ((if c then Except.error e else Except.ok v) >>= f) =
      if c then Except.error e else f v := by
  split <;> rfl

theorem bind_guard' {α β : Type} (c : Prop) [Decidable c] (v : α) (e : HandlerError)
    (f : α → Except HandlerError β) :
    ((if c then Except.ok v else Except.error e) >>= f) =
      if c then f v else Except.error e := by
  split <;> rfl

/-- Normal form of `serialize_user` on a present record: the sequential
validation checks, then the fixed output buffer. -/
theorem serialize_user_some (u : User) :
    serialize_user (some u) =
      if 0 ∈ u.name then .error .invalidFieldContent
      else if 0 ∈ u.dir then .error .invalidFieldContent
      else if 0 ∈ u.shell then .error .invalidFieldContent
      else if u.name.length + 1 ≤ I32MAX then
        if u.passwd.length + 1 ≤ I32MAX then
          if u.gecos.length + 1 ≤ I32MAX then
            if u.dir.length + 1 ≤ I32MAX then
              if u.shell.length + 1 ≤ I32MAX then Except.ok (pwBody u)
              else .error .fieldTooLarge
            else .error .fieldTooLarge
          else .error .fieldTooLarge
        else .error .fieldTooLarge
      else .error .fieldTooLarge := by
  simp only [serialize_user, cstringNew, tryIntoI32, bind_guard, bind_guard',
    List.length_append, List.length_cons, List.length_nil, pwBody]

/-- Mapping a guarded conversion over a list: it succeeds iff every element
passes the guard. -/
theorem mapM_guard {α β : Type} (p : α → Prop) [DecidablePred p] (f : α → β)
    (e : HandlerError) (l : List α) :
    l.mapM (fun a => if p a then Except.ok (f a) else Except.error e) =
      if ∀ a ∈ l, p a then Except.ok (l.map f) else Except.error e := by
  rw [← List.mapM'_eq_mapM]
  induction l with
  | nil => simp; rfl
  | cons a l ih =>
    simp only [List.mapM'_cons, bind_guard', ih]
    simp only [List.map_cons, List.forall_mem_cons]
    split_ifs with h1 h2 h3 <;> first | rfl | tauto

/-- Mapping a guarded identity check (the `CString::new` shape) over a
list: it succeeds, unchanged, iff no element trips the guard. -/
theorem mapM_guard' {α : Type} (p : α → Prop) [DecidablePred p]
    (e : HandlerError) (l : List α) :
    l.mapM (fun a => if p a then Except.error e else Except.ok a) =
      if ∀ a ∈ l, ¬ p a then Except.ok l else Except.error e := by
  rw [← List.mapM'_eq_mapM]
  induction l with
  | nil => simp; rfl
  | cons a l ih =>
    simp only [List.mapM'_cons, bind_guard, bind_guard', ih]
    simp only [List.forall_mem_cons]
    split_ifs with h1 h2 h3 <;> first | rfl | tauto

theorem two_le_I32MAX : (2 : Nat) ≤ I32MAX := by norm_num [I32MAX]

/-- The member list run through `CString::new`: succeeds, unchanged, iff no
member holds an embedded nul. -/
theorem mapM_cstringNew (l : List Bytes) :
    l.mapM cstringNew =
      if ∀ m ∈ l, ¬ 0 ∈ m then Except.ok l
      else Except.error HandlerError.invalidFieldContent := by
  have h2 : cstringNew = fun a =>
      if 0 ∈ a then Except.error HandlerError.invalidFieldContent
      else Except.ok a := by
    funext a; rfl
  rw [h2, mapM_guard']

/-- Normal form of `serialize_group` on a present record. -/
theorem serialize_group_some (g : Group) :
    serialize_group (some g) =
      if 0 ∈ g.name then .error .invalidFieldContent
      else if ∀ m ∈ g.mem, ¬ 0 ∈ m then
        if g.name.length + 1 ≤ I32MAX then
          if g.mem.length ≤ I32MAX then
            if ∀ m ∈ g.mem, m.length + 1 ≤ I32MAX then Except.ok (grBody g)
            else .error .fieldTooLarge
          else .error .fieldTooLarge
        else .error .fieldTooLarge
      else .error .invalidFieldContent := by
  simp only [serialize_group, mapM_cstringNew, cstringNew, tryIntoI32, mapM_guard,
    mapM_guard', bind_guard, bind_guard', two_le_I32MAX, if_true,
    List.map_map, Function.comp_def, List.forall_mem_map,
    List.length_append, List.length_cons, List.length_nil, grBody]
  simp [show (2 : Nat) ≤ I32MAX from by norm_num [I32MAX]]

/-- Inversion: a successful user encode implies every validation check
passed and pins the output buffer. -/
theorem serialize_user_ok_elim {u : User} {buf : Bytes}
    (h : serialize_user (some u) = .ok buf) :
    ¬ 0 ∈ u.name ∧ ¬ 0 ∈ u.dir ∧ ¬ 0 ∈ u.shell ∧
    u.name.length + 1 ≤ I32MAX ∧ u.passwd.length + 1 ≤ I32MAX ∧
    u.gecos.length + 1 ≤ I32MAX ∧ u.dir.length + 1 ≤ I32MAX ∧
    u.shell.length + 1 ≤ I32MAX ∧ buf = pwBody u := by
  rw [serialize_user_some] at h
  split_ifs at h with h1 h2 h3 h4 h5 h6 h7 h8
  all_goals cases h
  exact ⟨h1, h2, h3, h4, h5, h6, h7, h8, rfl⟩

/-- Inversion: a successful group encode implies every validation check
passed and pins the output buffer. -/
theorem serialize_group_ok_elim {g : Group} {buf : Bytes}
    (h : serialize_group (some g) = .ok buf) :
    ¬ 0 ∈ g.name ∧ (∀ m ∈ g.mem, ¬ 0 ∈ m) ∧
    g.name.length + 1 ≤ I32MAX ∧ g.mem.length ≤ I32MAX ∧
    (∀ m ∈ g.mem, m.length + 1 ≤ I32MAX) ∧ buf = grBody g := by
  rw [serialize_group_some] at h
  split_ifs at h with h1 h2 h3 h4 h5
  all_goals cases h
  exact ⟨h1, h2, h3, h4, h5, rfl⟩

/-- C1: for every present user record the encoder accepts, the output is
the fixed header — version marker, found = 1, the five field lengths each
including the terminating nul, the raw uid and gid — followed by the
payload fields in exactly the order name, password, gecos, home directory,
shell, each as its raw bytes plus exactly one nul byte (see `pwBody`). -/
theorem user_found_layout (u : User) (buf : Bytes)
    (h : serialize_user (some u) = .ok buf) : buf = pwBody u :=
  (serialize_user_ok_elim h).2.2.2.2.2.2.2.2

theorem user_found_layout_witness :
    serialize_user (some uEx) = .ok (pwBody uEx) ∧ pwBody uEx = pwBody uEx :=
  ⟨by decide, user_found_layout uEx (pwBody uEx) (by decide)⟩

/-- C2: for every present group record the encoder accepts, the output is
the header (version marker, found = 1, name length, password length, gid,
member count), then one 32-bit native-endian length per member in input
order, then name + nul, the placeholder password + nul, and each member
name + nul in that same input order — never reordered, deduped or sorted
(see `grBody`, which maps over the member list in order). -/
theorem group_found_layout (g : Group) (buf : Bytes)
    (h : serialize_group (some g) = .ok buf) : buf = grBody g :=
  (serialize_group_ok_elim h).2.2.2.2.2

theorem group_found_layout_witness :
    serialize_group (some gEx) = .ok (grBody gEx) ∧ grBody gEx = grBody gEx :=
  ⟨by decide, group_found_layout gEx (grBody gEx) (by decide)⟩

/-- C3: encoding an absent result always succeeds and yields a constant
all-zero fixed-size header (version = 0, found = 0, every length/id/count
field 0) with no payload, for users (36 bytes) and groups (24 bytes); and
at the dispatcher level a failed lookup by id and by name produce
byte-identical not-found responses. -/
theorem absent_encoding_constant :
    serialize_user none = .ok (List.replicate 36 0) ∧
    serialize_group none = .ok (List.replicate 24 0) ∧
    handle_request dbEmpty ⟨.GETPWBYUID, [49, 0]⟩ = .ok (List.replicate 36 0) ∧
    handle_request dbEmpty ⟨.GETPWBYNAME, [97, 0]⟩ = .ok (List.replicate 36 0) ∧
    handle_request dbEmpty ⟨.GETGRBYGID, [49, 0]⟩ = .ok (List.replicate 24 0) ∧
    handle_request dbEmpty ⟨.GETGRBYNAME, [97, 0]⟩ = .ok (List.replicate 24 0) :=
  ⟨by decide, by decide, by decide, by decide, by decide, by decide⟩

/-- C9 counterexample: a user record whose name is the single nul byte,
with nul-free home directory and shell, is rejected with
`invalidFieldContent` — so embedded nuls do cause failures outside the
path-derived fields, contrary to the claim. -/
theorem embedded_nul_name_fails :
    ¬ 0 ∈ uNul.dir ∧ ¬ 0 ∈ uNul.shell ∧
    serialize_user (some uNul) = .error .invalidFieldContent :=
  ⟨by decide, by decide, by decide⟩

/-- C9 (amended): an embedded nul byte causes an `invalidFieldContent`
failure exactly for the fields passed through `CString::new` — the user's
name, home directory and shell, and the group's name and member names;
the user's password and gecos fields (already C strings) never do. -/
theorem invalid_content_iff :
    (∀ u : User, serialize_user (some u) = .error .invalidFieldContent ↔
      (0 ∈ u.name ∨ 0 ∈ u.dir ∨ 0 ∈ u.shell)) ∧
    (∀ g : Group, serialize_group (some g) = .error .invalidFieldContent ↔
      (0 ∈ g.name ∨ ∃ m ∈ g.mem, 0 ∈ m)) := by
  constructor
  · intro u
    rw [serialize_user_some]
    split_ifs with h1 h2 h3 h4 h5 h6 h7 h8 <;> simp_all
  · intro g
    rw [serialize_group_some]
    split_ifs with h1 h2 h3 h4 h5 <;> simp_all

/-- C7: with the nul-content checks passed (and, for groups, a member
count that fits), the encoder fails with `fieldTooLarge` precisely when
some text field's byte length including its terminator exceeds
`i32::MAX`; a record whose field lengths all fit is never rejected on
size grounds. -/
theorem field_too_large_iff :
    (∀ u : User, ¬ 0 ∈ u.name → ¬ 0 ∈ u.dir → ¬ 0 ∈ u.shell →
      (serialize_user (some u) = .error .fieldTooLarge ↔
        (I32MAX < u.name.length + 1 ∨ I32MAX < u.passwd.length + 1 ∨
         I32MAX < u.gecos.length + 1 ∨ I32MAX < u.dir.length + 1 ∨
         I32MAX < u.shell.length + 1))) ∧
    (∀ g : Group, ¬ 0 ∈ g.name → (∀ m ∈ g.mem, ¬ 0 ∈ m) → g.mem.length ≤ I32MAX →
      (serialize_group (some g) = .error .fieldTooLarge ↔
        (I32MAX < g.name.length + 1 ∨ ∃ m ∈ g.mem, I32MAX < m.length + 1))) := by
  constructor
  · intro u h1 h2 h3
    rw [serialize_user_some]
    split_ifs <;> simp_all [Nat.not_le]
  · intro g h1 h2 h3
    rw [serialize_group_some]
    split_ifs <;> simp_all [Nat.not_le]

theorem field_too_large_iff_witness :
    (¬ 0 ∈ uEx.name ∧ ¬ 0 ∈ uEx.dir ∧ ¬ 0 ∈ uEx.shell) ∧
    (serialize_user (some uEx) = .error .fieldTooLarge ↔
      (I32MAX < uEx.name.length + 1 ∨ I32MAX < uEx.passwd.length + 1 ∨
       I32MAX < uEx.gecos.length + 1 ∨ I32MAX < uEx.dir.length + 1 ∨
       I32MAX < uEx.shell.length + 1)) :=
  ⟨by decide, field_too_large_iff.1 uEx (by decide) (by decide) (by decide)⟩

theorem getD_cons4 (a b c d x : Nat) (l : Bytes) (i : Nat) :
    (a :: b :: c :: d :: l).getD (4 + i) x = l.getD i x := by
  rw [show 4 + i = i + 1 + 1 + 1 + 1 from by omega]
  simp [List.getD_cons_succ]

theorem readI32_skip4 (k : Nat) (rest : Bytes) (i j : Nat) (hij : i = 4 + j) :
    readI32 (i32le k ++ rest) i = readI32 rest j := by
  subst hij
  simp only [i32le, List.cons_append, List.nil_append, readI32]
  rw [show 4 + j + 1 = 4 + (j + 1) from by omega,
      show 4 + j + 2 = 4 + (j + 2) from by omega,
      show 4 + j + 3 = 4 + (j + 3) from by omega,
      getD_cons4, getD_cons4, getD_cons4, getD_cons4]

theorem readI32_here (k : Nat) (rest : Bytes) (hk : k < 4294967296) :
    readI32 (i32le k ++ rest) 0 = k := by
  have h : readI32 (i32le k ++ rest) 0 =
      k % 256 + 256 * (k / 256 % 256) + 65536 * (k / 65536 % 256) +
        16777216 * (k / 16777216 % 256) := rfl
  rw [h]
  omega

theorem drop_skip4 (k : Nat) (rest : Bytes) (i j : Nat) (hij : i = 4 + j) :
    (i32le k ++ rest).drop i = rest.drop j := by
  subst hij
  simp only [i32le, List.cons_append, List.nil_append]
  rw [show 4 + j = j + 1 + 1 + 1 + 1 from by omega]
  simp [List.drop_succ_cons]

theorem seg_take (a : Bytes) (rest : Bytes) (n : Nat) (h : n = a.length + 1) :
    ((a ++ [0]) ++ rest).take n = a ++ [0] := by
  subst h
  exact List.take_left' (by simp)

theorem seg_drop (a : Bytes) (rest : Bytes) (n : Nat) (h : n = a.length + 1) :
    ((a ++ [0]) ++ rest).drop n = rest := by
  subst h
  exact List.drop_left' (by simp)

theorem pwread4 (hh : PwResponseHeader) (rest : Bytes) (hb : hh.found < 4294967296) :
    readI32 (hh.as_slice ++ rest) 4 = hh.found := by
  simp only [PwResponseHeader.as_slice, List.append_assoc]
  rw [readI32_skip4 _ _ 4 0 rfl, readI32_here _ _ hb]

theorem pwread8 (hh : PwResponseHeader) (rest : Bytes) (hb : hh.pw_name_len < 4294967296) :
    readI32 (hh.as_slice ++ rest) 8 = hh.pw_name_len := by
  simp only [PwResponseHeader.as_slice, List.append_assoc]
  rw [readI32_skip4 _ _ 8 4 (by norm_num), readI32_skip4 _ _ 4 0 rfl,
      readI32_here _ _ hb]

theorem pwread12 (hh : PwResponseHeader) (rest : Bytes) (hb : hh.pw_passwd_len < 4294967296) :
    readI32 (hh.as_slice ++ rest) 12 = hh.pw_passwd_len := by
  simp only [PwResponseHeader.as_slice, List.append_assoc]
  rw [readI32_skip4 _ _ 12 8 (by norm_num), readI32_skip4 _ _ 8 4 (by norm_num),
      readI32_skip4 _ _ 4 0 rfl, readI32_here _ _ hb]

theorem pwread16 (hh : PwResponseHeader) (rest : Bytes) (hb : hh.pw_uid < 4294967296) :
    readI32 (hh.as_slice ++ rest) 16 = hh.pw_uid := by
  simp only [PwResponseHeader.as_slice, List.append_assoc]
  rw [readI32_skip4 _ _ 16 12 (by norm_num), readI32_skip4 _ _ 12 8 (by norm_num),
      readI32_skip4 _ _ 8 4 (by norm_num), readI32_skip4 _ _ 4 0 rfl,
      readI32_here _ _ hb]

theorem pwread20 (hh : PwResponseHeader) (rest : Bytes) (hb : hh.pw_gid < 4294967296) :
    readI32 (hh.as_slice ++ rest) 20 = hh.pw_gid := by
  simp only [PwResponseHeader.as_slice, List.append_assoc]
  rw [readI32_skip4 _ _ 20 16 (by norm_num), readI32_skip4 _ _ 16 12 (by norm_num),
      readI32_skip4 _ _ 12 8 (by norm_num), readI32_skip4 _ _ 8 4 (by norm_num),
      readI32_skip4 _ _ 4 0 rfl, readI32_here _ _ hb]

theorem pwread24 (hh : PwResponseHeader) (rest : Bytes) (hb : hh.pw_gecos_len < 4294967296) :
    readI32 (hh.as_slice ++ rest) 24 = hh.pw_gecos_len := by
  simp only [PwResponseHeader.as_slice, List.append_assoc]
  rw [readI32_skip4 _ _ 24 20 (by norm_num), readI32_skip4 _ _ 20 16 (by norm_num),
      readI32_skip4 _ _ 16 12 (by norm_num), readI32_skip4 _ _ 12 8 (by norm_num),
      readI32_skip4 _ _ 8 4 (by norm_num), readI32_skip4 _ _ 4 0 rfl,
      readI32_here _ _ hb]

theorem pwread28 (hh : PwResponseHeader) (rest : Bytes) (hb : hh.pw_dir_len < 4294967296) :
    readI32 (hh.as_slice ++ rest) 28 = hh.pw_dir_len := by
  simp only [PwResponseHeader.as_slice, List.append_assoc]
  rw [readI32_skip4 _ _ 28 24 (by norm_num), readI32_skip4 _ _ 24 20 (by norm_num),
      readI32_skip4 _ _ 20 16 (by norm_num), readI32_skip4 _ _ 16 12 (by norm_num),
      readI32_skip4 _ _ 12 8 (by norm_num), readI32_skip4 _ _ 8 4 (by norm_num),
      readI32_skip4 _ _ 4 0 rfl, readI32_here _ _ hb]

theorem pwread32 (hh : PwResponseHeader) (rest : Bytes) (hb : hh.pw_shell_len < 4294967296) :
    readI32 (hh.as_slice ++ rest) 32 = hh.pw_shell_len := by
  simp only [PwResponseHeader.as_slice, List.append_assoc]
  rw [readI32_skip4 _ _ 32 28 (by norm_num), readI32_skip4 _ _ 28 24 (by norm_num),
      readI32_skip4 _ _ 24 20 (by norm_num), readI32_skip4 _ _ 20 16 (by norm_num),
      readI32_skip4 _ _ 16 12 (by norm_num), readI32_skip4 _ _ 12 8 (by norm_num),
      readI32_skip4 _ _ 8 4 (by norm_num), readI32_skip4 _ _ 4 0 rfl,
      readI32_here _ _ hb]

theorem pwdrop36 (hh : PwResponseHeader) (rest : Bytes) :
    (hh.as_slice ++ rest).drop 36 = rest := by
  simp only [PwResponseHeader.as_slice, List.append_assoc]
  rw [drop_skip4 _ _ 36 32 (by norm_num), drop_skip4 _ _ 32 28 (by norm_num),
      drop_skip4 _ _ 28 24 (by norm_num), drop_skip4 _ _ 24 20 (by norm_num),
      drop_skip4 _ _ 20 16 (by norm_num), drop_skip4 _ _ 16 12 (by norm_num),
      drop_skip4 _ _ 12 8 (by norm_num), drop_skip4 _ _ 8 4 (by norm_num),
      drop_skip4 _ _ 4 0 rfl, List.drop_zero]

theorem pw_as_slice_length (hh : PwResponseHeader) : hh.as_slice.length = 36 := by
  simp [PwResponseHeader.as_slice, i32le]

theorem grread4 (hh : GrResponseHeader) (rest : Bytes) (hb : hh.found < 4294967296) :
    readI32 (hh.as_slice ++ rest) 4 = hh.found := by
  simp only [GrResponseHeader.as_slice, List.append_assoc]
  rw [readI32_skip4 _ _ 4 0 rfl, readI32_here _ _ hb]

theorem grread8 (hh : GrResponseHeader) (rest : Bytes) (hb : hh.gr_name_len < 4294967296) :
    readI32 (hh.as_slice ++ rest) 8 = hh.gr_name_len := by
  simp only [GrResponseHeader.as_slice, List.append_assoc]
  rw [readI32_skip4 _ _ 8 4 (by norm_num), readI32_skip4 _ _ 4 0 rfl,
      readI32_here _ _ hb]

theorem grread12 (hh : GrResponseHeader) (rest : Bytes) (hb : hh.gr_passwd_len < 4294967296) :
    readI32 (hh.as_slice ++ rest) 12 = hh.gr_passwd_len := by
  simp only [GrResponseHeader.as_slice, List.append_assoc]
  rw [readI32_skip4 _ _ 12 8 (by norm_num), readI32_skip4 _ _ 8 4 (by norm_num),
      readI32_skip4 _ _ 4 0 rfl, readI32_here _ _ hb]

theorem grread16 (hh : GrResponseHeader) (rest : Bytes) (hb : hh.gr_gid < 4294967296) :
    readI32 (hh.as_slice ++ rest) 16 = hh.gr_gid := by
  simp only [GrResponseHeader.as_slice, List.append_assoc]
  rw [readI32_skip4 _ _ 16 12 (by norm_num), readI32_skip4 _ _ 12 8 (by norm_num),
      readI32_skip4 _ _ 8 4 (by norm_num), readI32_skip4 _ _ 4 0 rfl,
      readI32_here _ _ hb]

theorem grread20 (hh : GrResponseHeader) (rest : Bytes) (hb : hh.gr_mem_cnt < 4294967296) :
    readI32 (hh.as_slice ++ rest) 20 = hh.gr_mem_cnt := by
  simp only [GrResponseHeader.as_slice, List.append_assoc]
  rw [readI32_skip4 _ _ 20 16 (by norm_num), readI32_skip4 _ _ 16 12 (by norm_num),
      readI32_skip4 _ _ 12 8 (by norm_num), readI32_skip4 _ _ 8 4 (by norm_num),
      readI32_skip4 _ _ 4 0 rfl, readI32_here _ _ hb]

theorem grread_off (hh : GrResponseHeader) (rest : Bytes) (i j : Nat) (hij : i = 24 + j) :
    readI32 (hh.as_slice ++ rest) i = readI32 rest j := by
  simp only [GrResponseHeader.as_slice, List.append_assoc]
  rw [readI32_skip4 _ _ i (20 + j) (by omega), readI32_skip4 _ _ _ (16 + j) (by omega),
      readI32_skip4 _ _ _ (12 + j) (by omega), readI32_skip4 _ _ _ (8 + j) (by omega),
      readI32_skip4 _ _ _ (4 + j) (by omega), readI32_skip4 _ _ _ j (by omega)]

theorem grdrop_off (hh : GrResponseHeader) (rest : Bytes) (i j : Nat) (hij : i = 24 + j) :
    (hh.as_slice ++ rest).drop i = rest.drop j := by
  simp only [GrResponseHeader.as_slice, List.append_assoc]
  rw [drop_skip4 _ _ i (20 + j) (by omega), drop_skip4 _ _ _ (16 + j) (by omega),
      drop_skip4 _ _ _ (12 + j) (by omega), drop_skip4 _ _ _ (8 + j) (by omega),
      drop_skip4 _ _ _ (4 + j) (by omega), drop_skip4 _ _ _ j (by omega)]

theorem gr_as_slice_length (hh : GrResponseHeader) : hh.as_slice.length = 24 := by
  simp [GrResponseHeader.as_slice, i32le]

theorem flatten_i32le_length (ms : List Nat) :
    ((ms.map i32le).flatten).length = 4 * ms.length := by
  induction ms with
  | nil => simp
  | cons a ms ih =>
    simp only [List.map_cons, List.flatten_cons, List.length_append, ih, i32le,
      List.length_cons, List.length_nil]
    omega

theorem readLens (ms : List Nat) (rest : Bytes) (hms : ∀ l ∈ ms, l < 4294967296) :
    (List.range ms.length).map
      (fun i => readI32 ((ms.map i32le).flatten ++ rest) (4 * i)) = ms := by
  induction ms with
  | nil => simp
  | cons a ms ih =>
    simp only [List.map_cons, List.flatten_cons, List.length_cons, List.append_assoc]
    rw [List.range_succ_eq_map, List.map_cons, List.map_map]
    congr 1
    · exact readI32_here _ _ (hms a (by simp))
    · rw [List.map_congr_left
        (fun i _ => by
          simp only [Function.comp_apply]
          exact readI32_skip4 a ((ms.map i32le).flatten ++ rest) (4 * Nat.succ i) (4 * i)
            (by omega))]
      exact ih (fun l hl => hms l (List.mem_cons_of_mem _ hl))

theorem extractSegs_exact (ps : List Bytes) :
    extractSegs (ps.map List.length) ps.flatten = ps := by
  induction ps with
  | nil => rfl
  | cons p ps ih =>
    simp only [List.map_cons, List.flatten_cons, extractSegs]
    rw [List.take_left, List.drop_left, ih]

/-- Decoding the buffer built for a found user record recovers the record
(given the length bounds a successful encode guarantees and the `u32`
bounds on the raw ids). -/
theorem decode_user_pwBody (u : User)
    (hn : u.name.length + 1 ≤ I32MAX) (hp : u.passwd.length + 1 ≤ I32MAX)
    (hg : u.gecos.length + 1 ≤ I32MAX) (hd : u.dir.length + 1 ≤ I32MAX)
    (hs : u.shell.length + 1 ≤ I32MAX)
    (huid : u.uid < 4294967296) (hgid : u.gid < 4294967296) :
    decode_user (pwBody u) = some u := by
  have hMAX : I32MAX < 4294967296 := by norm_num [I32MAX]
  have r4 := pwread4 ⟨VERSION, 1, u.name.length + 1, u.passwd.length + 1, u.uid, u.gid,
    u.gecos.length + 1, u.dir.length + 1, u.shell.length + 1⟩
    ((u.name ++ [0]) ++ ((u.passwd ++ [0]) ++ ((u.gecos ++ [0]) ++
      ((u.dir ++ [0]) ++ (u.shell ++ [0]))))) (by show (1 : Nat) < 4294967296; norm_num)
  have r8 := pwread8 ⟨VERSION, 1, u.name.length + 1, u.passwd.length + 1, u.uid, u.gid,
    u.gecos.length + 1, u.dir.length + 1, u.shell.length + 1⟩
    ((u.name ++ [0]) ++ ((u.passwd ++ [0]) ++ ((u.gecos ++ [0]) ++
      ((u.dir ++ [0]) ++ (u.shell ++ [0]))))) (by show u.name.length + 1 < 4294967296; omega)
  have r12 := pwread12 ⟨VERSION, 1, u.name.length + 1, u.passwd.length + 1, u.uid, u.gid,
    u.gecos.length + 1, u.dir.length + 1, u.shell.length + 1⟩
    ((u.name ++ [0]) ++ ((u.passwd ++ [0]) ++ ((u.gecos ++ [0]) ++
      ((u.dir ++ [0]) ++ (u.shell ++ [0]))))) (by show u.passwd.length + 1 < 4294967296; omega)
  have r16 := pwread16 ⟨VERSION, 1, u.name.length + 1, u.passwd.length + 1, u.uid, u.gid,
    u.gecos.length + 1, u.dir.length + 1, u.shell.length + 1⟩
    ((u.name ++ [0]) ++ ((u.passwd ++ [0]) ++ ((u.gecos ++ [0]) ++
      ((u.dir ++ [0]) ++ (u.shell ++ [0]))))) huid
  have r20 := pwread20 ⟨VERSION, 1, u.name.length + 1, u.passwd.length + 1, u.uid, u.gid,
    u.gecos.length + 1, u.dir.length + 1, u.shell.length + 1⟩
    ((u.name ++ [0]) ++ ((u.passwd ++ [0]) ++ ((u.gecos ++ [0]) ++
      ((u.dir ++ [0]) ++ (u.shell ++ [0]))))) hgid
  have r24 := pwread24 ⟨VERSION, 1, u.name.length + 1, u.passwd.length + 1, u.uid, u.gid,
    u.gecos.length + 1, u.dir.length + 1, u.shell.length + 1⟩
    ((u.name ++ [0]) ++ ((u.passwd ++ [0]) ++ ((u.gecos ++ [0]) ++
      ((u.dir ++ [0]) ++ (u.shell ++ [0]))))) (by show u.gecos.length + 1 < 4294967296; omega)
  have r28 := pwread28 ⟨VERSION, 1, u.name.length + 1, u.passwd.length + 1, u.uid, u.gid,
    u.gecos.length + 1, u.dir.length + 1, u.shell.length + 1⟩
    ((u.name ++ [0]) ++ ((u.passwd ++ [0]) ++ ((u.gecos ++ [0]) ++
      ((u.dir ++ [0]) ++ (u.shell ++ [0]))))) (by show u.dir.length + 1 < 4294967296; omega)
  have r32 := pwread32 ⟨VERSION, 1, u.name.length + 1, u.passwd.length + 1, u.uid, u.gid,
    u.gecos.length + 1, u.dir.length + 1, u.shell.length + 1⟩
    ((u.name ++ [0]) ++ ((u.passwd ++ [0]) ++ ((u.gecos ++ [0]) ++
      ((u.dir ++ [0]) ++ (u.shell ++ [0]))))) (by show u.shell.length + 1 < 4294967296; omega)
  have d36 := pwdrop36 ⟨VERSION, 1, u.name.length + 1, u.passwd.length + 1, u.uid, u.gid,
    u.gecos.length + 1, u.dir.length + 1, u.shell.length + 1⟩
    ((u.name ++ [0]) ++ ((u.passwd ++ [0]) ++ ((u.gecos ++ [0]) ++
      ((u.dir ++ [0]) ++ (u.shell ++ [0])))))
  simp only [decode_user, pwBody] at r4 r8 r12 r16 r20 r24 r28 r32 d36 ⊢
  rw [r4, r8, r12, r16, r20, r24, r28, r32, d36]
  rw [seg_take _ _ _ rfl, seg_drop _ _ _ rfl, seg_take _ _ _ rfl, seg_drop _ _ _ rfl,
      seg_take _ _ _ rfl, seg_drop _ _ _ rfl, seg_take _ _ _ rfl, seg_drop _ _ _ rfl]
  simp [List.dropLast_concat, List.take_of_length_le]

/-- Decoding the buffer built for a found group record recovers the record
with the placeholder password (given the bounds a successful encode
guarantees and the `u32` bound on the raw gid). -/
theorem decode_group_grBody (g : Group)
    (hname : g.name.length + 1 ≤ I32MAX) (hcnt : g.mem.length ≤ I32MAX)
    (hmem : ∀ m ∈ g.mem, m.length + 1 ≤ I32MAX) (hgid : g.gid < 4294967296) :
    decode_group (grBody g) = some ⟨g.name, [120], g.gid, g.mem⟩ := by
  have hMAX : I32MAX < 4294967296 := by norm_num [I32MAX]
  have r4 := grread4 ⟨VERSION, 1, g.name.length + 1, 2, g.gid, g.mem.length⟩
    ((((g.mem.map fun m => m.length + 1).map i32le).flatten) ++
      ((g.name ++ [0]) ++ (([120, 0] : Bytes) ++ (g.mem.map fun m => m ++ [0]).flatten)))
    (by show (1 : Nat) < 4294967296; norm_num)
  have r8 := grread8 ⟨VERSION, 1, g.name.length + 1, 2, g.gid, g.mem.length⟩
    ((((g.mem.map fun m => m.length + 1).map i32le).flatten) ++
      ((g.name ++ [0]) ++ (([120, 0] : Bytes) ++ (g.mem.map fun m => m ++ [0]).flatten)))
    (by show g.name.length + 1 < 4294967296; omega)
  have r12 := grread12 ⟨VERSION, 1, g.name.length + 1, 2, g.gid, g.mem.length⟩
    ((((g.mem.map fun m => m.length + 1).map i32le).flatten) ++
      ((g.name ++ [0]) ++ (([120, 0] : Bytes) ++ (g.mem.map fun m => m ++ [0]).flatten)))
    (by show (2 : Nat) < 4294967296; norm_num)
  have r16 := grread16 ⟨VERSION, 1, g.name.length + 1, 2, g.gid, g.mem.length⟩
    ((((g.mem.map fun m => m.length + 1).map i32le).flatten) ++
      ((g.name ++ [0]) ++ (([120, 0] : Bytes) ++ (g.mem.map fun m => m ++ [0]).flatten)))
    hgid
  have r20 := grread20 ⟨VERSION, 1, g.name.length + 1, 2, g.gid, g.mem.length⟩
    ((((g.mem.map fun m => m.length + 1).map i32le).flatten) ++
      ((g.name ++ [0]) ++ (([120, 0] : Bytes) ++ (g.mem.map fun m => m ++ [0]).flatten)))
    (by show g.mem.length < 4294967296; omega)
  have rlens : (List.range g.mem.length).map
      (fun i => readI32 (GrResponseHeader.as_slice
          ⟨VERSION, 1, g.name.length + 1, 2, g.gid, g.mem.length⟩ ++
        ((((g.mem.map fun m => m.length + 1).map i32le).flatten) ++
          ((g.name ++ [0]) ++ (([120, 0] : Bytes) ++
            (g.mem.map fun m => m ++ [0]).flatten)))) (24 + 4 * i)) =
      g.mem.map fun m => m.length + 1 := by
    rw [List.map_congr_left (fun i _ => grread_off _ _ (24 + 4 * i) (4 * i) (by omega))]
    have hlen : g.mem.length = (g.mem.map fun m => m.length + 1).length :=
      (List.length_map _ _).symm
    rw [hlen]
    exact readLens _ _ (by
      intro l hl
      simp only [List.mem_map] at hl
      obtain ⟨m, hm, rfl⟩ := hl
      have := hmem m hm
      omega)
  have dp : (GrResponseHeader.as_slice
        ⟨VERSION, 1, g.name.length + 1, 2, g.gid, g.mem.length⟩ ++
      ((((g.mem.map fun (m : Bytes) => m.length + 1).map i32le).flatten) ++
        ((g.name ++ [0]) ++ (([120, 0] : Bytes) ++
          (g.mem.map fun m => m ++ [0]).flatten)))).drop (24 + 4 * g.mem.length) =
      (g.name ++ [0]) ++ (([120, 0] : Bytes) ++ (g.mem.map fun m => m ++ [0]).flatten) := by
    rw [grdrop_off _ _ _ (4 * g.mem.length) (by omega)]
    exact List.drop_left' (by rw [flatten_i32le_length, List.length_map])
  have hps : (g.mem.map fun m => m.length + 1) =
      (g.mem.map fun m => m ++ [0]).map List.length := by
    rw [List.map_map]
    exact List.map_congr_left (fun (m : Bytes) _ => by simp)
  have hmd : ((g.mem.map fun m => m ++ [0]).map List.dropLast) = g.mem := by
    rw [List.map_map]
    have h : ∀ m ∈ g.mem, (List.dropLast ∘ fun m => m ++ [0]) m = m :=
      fun (m : Bytes) _ => by simp
    rw [List.map_congr_left h, List.map_id']
  simp only [decode_group, grBody] at r4 r8 r12 r16 r20 rlens dp ⊢
  rw [r4, r8, r12, r16, r20, rlens, dp]
  rw [seg_take _ _ _ rfl, seg_drop _ _ _ rfl,
      List.take_left' (show (([120, 0] : Bytes)).length = 2 from rfl),
      List.drop_left' (show (([120, 0] : Bytes)).length = 2 from rfl),
      hps, extractSegs_exact, hmd]
  simp [List.dropLast_concat]

/-- C5: round-trip law — decoding a found-path encoding with the reference
wire-format decoder reproduces every field of the original record, except
that the group password always decodes to the placeholder `"x"` (byte 120)
regardless of the source record's password. -/
theorem round_trip (u : User) (g : Group) (bu bg : Bytes)
    (hu : serialize_user (some u) = .ok bu)
    (huid : u.uid < 4294967296) (hgid : u.gid < 4294967296)
    (hg : serialize_group (some g) = .ok bg) (hggid : g.gid < 4294967296) :
    decode_user bu = some u ∧
    decode_group bg = some ⟨g.name, [120], g.gid, g.mem⟩ := by
  obtain ⟨-, -, -, h4, h5, h6, h7, h8, rfl⟩ := serialize_user_ok_elim hu
  obtain ⟨-, -, k3, k4, k5, rfl⟩ := serialize_group_ok_elim hg
  exact ⟨decode_user_pwBody u h4 h5 h6 h7 h8 huid hgid,
    decode_group_grBody g k3 k4 k5 hggid⟩

theorem round_trip_witness :
    (serialize_user (some uEx) = .ok (pwBody uEx) ∧
     uEx.uid < 4294967296 ∧ uEx.gid < 4294967296 ∧
     serialize_group (some gEx) = .ok (grBody gEx) ∧ gEx.gid < 4294967296) ∧
    (decode_user (pwBody uEx) = some uEx ∧
     decode_group (grBody gEx) = some ⟨gEx.name, [120], gEx.gid, gEx.mem⟩) :=
  ⟨⟨by decide, by decide, by decide, by decide, by decide⟩,
   round_trip uEx gEx (pwBody uEx) (grBody gEx)
     (by decide) (by decide) (by decide) (by decide) (by decide)⟩

/-- C8: in every successfully encoded found response, each length field
declared in the header — and, for groups, each entry of the per-member
length array — equals the exact byte length of the corresponding
null-terminated payload segment including its terminator, and the total
buffer length is the fixed header size plus (for groups) 4 bytes per
member plus the sum of the declared lengths. -/
theorem declared_lengths_exact (u : User) (g : Group) (bu bg : Bytes)
    (hu : serialize_user (some u) = .ok bu)
    (hg : serialize_group (some g) = .ok bg) :
    (readI32 bu 8 = (u.name ++ [0]).length ∧
     readI32 bu 12 = (u.passwd ++ [0]).length ∧
     readI32 bu 24 = (u.gecos ++ [0]).length ∧
     readI32 bu 28 = (u.dir ++ [0]).length ∧
     readI32 bu 32 = (u.shell ++ [0]).length ∧
     bu.length = 36 + ((u.name ++ [0]).length + (u.passwd ++ [0]).length +
       (u.gecos ++ [0]).length + (u.dir ++ [0]).length + (u.shell ++ [0]).length)) ∧
    (readI32 bg 8 = (g.name ++ [0]).length ∧
     readI32 bg 12 = (([120, 0] : Bytes)).length ∧
     readI32 bg 20 = g.mem.length ∧
     (List.range g.mem.length).map (fun i => readI32 bg (24 + 4 * i)) =
       g.mem.map (fun (m : Bytes) => (m ++ [0]).length) ∧
     bg.length = 24 + 4 * g.mem.length + ((g.name ++ [0]).length +
       (([120, 0] : Bytes)).length +
       (g.mem.map fun (m : Bytes) => (m ++ [0]).length).sum)) := by
  obtain ⟨-, -, -, h4, h5, h6, h7, h8, rfl⟩ := serialize_user_ok_elim hu
  obtain ⟨-, -, k3, k4, k5, rfl⟩ := serialize_group_ok_elim hg
  have hMAX : I32MAX < 4294967296 := by norm_num [I32MAX]
  have hmaps : (g.mem.map fun (m : Bytes) => (m ++ [0]).length) =
      g.mem.map fun m => m.length + 1 :=
    List.map_congr_left (fun (m : Bytes) _ => by simp)
  have hsum : ((g.mem.map fun m => m ++ [0]).flatten).length =
      (g.mem.map fun m => m.length + 1).sum := by
    rw [List.length_flatten, List.map_map]
    first
    | rfl
    | exact congrArg List.sum (List.map_congr_left (fun (m : Bytes) _ => by simp))
  constructor
  · refine ⟨?_, ?_, ?_, ?_, ?_, ?_⟩
    · have h := pwread8 ⟨VERSION, 1, u.name.length + 1, u.passwd.length + 1, u.uid,
        u.gid, u.gecos.length + 1, u.dir.length + 1, u.shell.length + 1⟩
        ((u.name ++ [0]) ++ ((u.passwd ++ [0]) ++ ((u.gecos ++ [0]) ++
          ((u.dir ++ [0]) ++ (u.shell ++ [0])))))
        (by show u.name.length + 1 < 4294967296; omega)
      simpa [pwBody] using h
    · have h := pwread12 ⟨VERSION, 1, u.name.length + 1, u.passwd.length + 1, u.uid,
        u.gid, u.gecos.length + 1, u.dir.length + 1, u.shell.length + 1⟩
        ((u.name ++ [0]) ++ ((u.passwd ++ [0]) ++ ((u.gecos ++ [0]) ++
          ((u.dir ++ [0]) ++ (u.shell ++ [0])))))
        (by show u.passwd.length + 1 < 4294967296; omega)
      simpa [pwBody] using h
    · have h := pwread24 ⟨VERSION, 1, u.name.length + 1, u.passwd.length + 1, u.uid,
        u.gid, u.gecos.length + 1, u.dir.length + 1, u.shell.length + 1⟩
        ((u.name ++ [0]) ++ ((u.passwd ++ [0]) ++ ((u.gecos ++ [0]) ++
          ((u.dir ++ [0]) ++ (u.shell ++ [0])))))
        (by show u.gecos.length + 1 < 4294967296; omega)
      simpa [pwBody] using h
    · have h := pwread28 ⟨VERSION, 1, u.name.length + 1, u.passwd.length + 1, u.uid,
        u.gid, u.gecos.length + 1, u.dir.length + 1, u.shell.length + 1⟩
        ((u.name ++ [0]) ++ ((u.passwd ++ [0]) ++ ((u.gecos ++ [0]) ++
          ((u.dir ++ [0]) ++ (u.shell ++ [0])))))
        (by show u.dir.length + 1 < 4294967296; omega)
      simpa [pwBody] using h
    · have h := pwread32 ⟨VERSION, 1, u.name.length + 1, u.passwd.length + 1, u.uid,
        u.gid, u.gecos.length + 1, u.dir.length + 1, u.shell.length + 1⟩
        ((u.name ++ [0]) ++ ((u.passwd ++ [0]) ++ ((u.gecos ++ [0]) ++
          ((u.dir ++ [0]) ++ (u.shell ++ [0])))))
        (by show u.shell.length + 1 < 4294967296; omega)
      simpa [pwBody] using h
    · simp only [pwBody, List.length_append, pw_as_slice_length, List.length_cons,
        List.length_nil]
      omega
  · refine ⟨?_, ?_, ?_, ?_, ?_⟩
    · have h := grread8 ⟨VERSION, 1, g.name.length + 1, 2, g.gid, g.mem.length⟩
        ((((g.mem.map fun m => m.length + 1).map i32le).flatten) ++
          ((g.name ++ [0]) ++ (([120, 0] : Bytes) ++
            (g.mem.map fun m => m ++ [0]).flatten)))
        (by show g.name.length + 1 < 4294967296; omega)
      simpa [grBody] using h
    · have h := grread12 ⟨VERSION, 1, g.name.length + 1, 2, g.gid, g.mem.length⟩
        ((((g.mem.map fun m => m.length + 1).map i32le).flatten) ++
          ((g.name ++ [0]) ++ (([120, 0] : Bytes) ++
            (g.mem.map fun m => m ++ [0]).flatten)))
        (by show (2 : Nat) < 4294967296; norm_num)
      simpa [grBody] using h
    · have h := grread20 ⟨VERSION, 1, g.name.length + 1, 2, g.gid, g.mem.length⟩
        ((((g.mem.map fun m => m.length + 1).map i32le).flatten) ++
          ((g.name ++ [0]) ++ (([120, 0] : Bytes) ++
            (g.mem.map fun m => m ++ [0]).flatten)))
        (by show g.mem.length < 4294967296; omega)
      simpa [grBody] using h
    · rw [hmaps]
      have h : ∀ i, readI32 (grBody g) (24 + 4 * i) =
          readI32 ((((g.mem.map fun m => m.length + 1).map i32le).flatten) ++
            ((g.name ++ [0]) ++ (([120, 0] : Bytes) ++
              (g.mem.map fun m => m ++ [0]).flatten))) (4 * i) := by
        intro i
        show readI32 (GrResponseHeader.as_slice
            ⟨VERSION, 1, g.name.length + 1, 2, g.gid, g.mem.length⟩ ++ _) _ = _
        exact grread_off _ _ (24 + 4 * i) (4 * i) (by omega)
      rw [List.map_congr_left (fun i _ => h i)]
      have hlen : g.mem.length = (g.mem.map fun m => m.length + 1).length :=
        (List.length_map _ _).symm
      rw [hlen]
      exact readLens _ _ (by
        intro l hl
        simp only [List.mem_map] at hl
        obtain ⟨m, hm, rfl⟩ := hl
        have := k5 m hm
        omega)
    · rw [hmaps]
      simp only [grBody, List.length_append, gr_as_slice_length, flatten_i32le_length,
        List.length_map, hsum, List.length_cons, List.length_nil]
      omega

theorem declared_lengths_exact_witness :
    (serialize_user (some uEx) = .ok (pwBody uEx) ∧
     serialize_group (some gEx) = .ok (grBody gEx)) ∧
    ((readI32 (pwBody uEx) 8 = (uEx.name ++ [0]).length ∧
      readI32 (pwBody uEx) 12 = (uEx.passwd ++ [0]).length ∧
      readI32 (pwBody uEx) 24 = (uEx.gecos ++ [0]).length ∧
      readI32 (pwBody uEx) 28 = (uEx.dir ++ [0]).length ∧
      readI32 (pwBody uEx) 32 = (uEx.shell ++ [0]).length ∧
      (pwBody uEx).length = 36 + ((uEx.name ++ [0]).length + (uEx.passwd ++ [0]).length +
        (uEx.gecos ++ [0]).length + (uEx.dir ++ [0]).length + (uEx.shell ++ [0]).length)) ∧
     (readI32 (grBody gEx) 8 = (gEx.name ++ [0]).length ∧
      readI32 (grBody gEx) 12 = (([120, 0] : Bytes)).length ∧
      readI32 (grBody gEx) 20 = gEx.mem.length ∧
      (List.range gEx.mem.length).map (fun i => readI32 (grBody gEx) (24 + 4 * i)) =
        gEx.mem.map (fun (m : Bytes) => (m ++ [0]).length) ∧
      (grBody gEx).length = 24 + 4 * gEx.mem.length + ((gEx.name ++ [0]).length +
        (([120, 0] : Bytes)).length +
        (gEx.mem.map fun (m : Bytes) => (m ++ [0]).length).sum))) :=
  ⟨⟨by decide, by decide⟩,
   declared_lengths_exact uEx gEx (pwBody uEx) (grBody gEx) (by decide) (by decide)⟩

theorem error_bind {α β : Type} (e : HandlerError) (f : α → Except HandlerError β) :
    (Except.error e >>= f) = Except.error e := rfl

theorem ok_bind {α β : Type} (v : α) (f : α → Except HandlerError β) :
    (Except.ok v >>= f) = f v := rfl

theorem serialize_user_ne_malformed (o : Option User) :
    serialize_user o ≠ .error .malformedKey := by
  cases o with
  | none => simp [serialize_user]
  | some u => rw [serialize_user_some]; split_ifs <;> simp

theorem serialize_group_ne_malformed (o : Option Group) :
    serialize_group o ≠ .error .malformedKey := by
  cases o with
  | none => simp [serialize_group]
  | some g => rw [serialize_group_some]; split_ifs <;> simp

/-- C6: every request whose type is one of the nineteen unimplemented
kinds succeeds with an empty byte buffer, for every identity database and
every key value, malformed keys included. -/
theorem stub_requests_empty (db : Db) (req : Request)
    (h : req.ty.isImplemented = false) :
    handle_request db req = .ok [] := by
  obtain ⟨ty, key⟩ := req
  dsimp only at h
  cases ty <;> first | rfl | exact absurd h (by decide)

theorem stub_requests_empty_witness :
    RequestType.SHUTDOWN.isImplemented = false ∧
    handle_request dbEmpty ⟨.SHUTDOWN, [127, 1]⟩ = .ok [] :=
  ⟨by decide, stub_requests_empty dbEmpty ⟨.SHUTDOWN, [127, 1]⟩ (by decide)⟩

/-- C10: for each of the four implemented lookup request types, every key
that is empty, contains no nul byte, or whose nul placement is not exactly
one nul in last position is rejected with `malformedKey` — for every
identity database, so such a key never reaches the identity lookup. -/
theorem strict_nul_check (db : Db) (req : Request)
    (himpl : req.ty.isImplemented = true)
    (hbad : req.key = [] ∨ ¬ 0 ∈ req.key ∨
      ¬ (req.key.getLast? = some 0 ∧ ¬ 0 ∈ req.key.dropLast)) :
    handle_request db req = .error .malformedKey := by
  obtain ⟨ty, key⟩ := req
  dsimp only at himpl hbad
  have hk : cstrFromBytesWithNul key = .error .malformedKey := by
    rw [cstrFromBytesWithNul, if_neg]
    rcases hbad with h | h | h
    · intro hc
      rw [h] at hc
      simp at hc
    · intro hc
      exact h (List.mem_of_getLast?_eq_some hc.1)
    · exact h
  cases ty <;> first
  | exact absurd himpl (by decide)
  | (simp only [handle_request]; rw [hk, error_bind])

theorem strict_nul_check_witness :
    RequestType.GETPWBYNAME.isImplemented = true ∧
    (([127, 0, 0, 1] : Bytes) = [] ∨ ¬ 0 ∈ ([127, 0, 0, 1] : Bytes) ∨
      ¬ (([127, 0, 0, 1] : Bytes).getLast? = some 0 ∧
         ¬ 0 ∈ ([127, 0, 0, 1] : Bytes).dropLast)) ∧
    handle_request dbEmpty ⟨.GETPWBYNAME, [127, 0, 0, 1]⟩ = .error .malformedKey :=
  ⟨by decide, by decide,
   strict_nul_check dbEmpty ⟨.GETPWBYNAME, [127, 0, 0, 1]⟩ (by decide) (by decide)⟩

/-- C4 counterexample: the uid key `"1a\0"` is nul-terminated but holds a
trailing non-digit byte before the terminator; the claim requires a
`MalformedKey` failure, yet the dispatcher parses the leading digit run
(`1`), performs the lookup, and returns the found user's encoding. -/
theorem trailing_junk_uid_key_accepted :
    handle_request dbU1 ⟨.GETPWBYUID, [49, 97, 0]⟩ = .ok (pwBody uEx) := by decide

/-- The checked parse rejects an overflowing digit run: the uid key
`"4294967296\0"` (one past `u32::MAX`) fails with `malformedKey`. -/
theorem overflow_uid_key_rejected :
    handle_request dbEmpty ⟨.GETPWBYUID, [52, 50, 57, 52, 57, 54, 55, 50, 57, 54, 0]⟩ =
      .error .malformedKey := by decide

/-- C4 (amended): a by-id request fails with `malformedKey` exactly when
the key is not a nul-terminated string with no interior nul, or its
content fails the checked `atoi` parse — it has no leading ASCII digit,
or its maximal leading digit run overflows `u32`.  A key whose leading
digit run fits `u32` is parsed as that run — trailing non-digit bytes
before the terminator are ignored, not rejected — and looked up. -/
theorem byid_malformed_iff (db : Db) (key : Bytes) :
    (handle_request db ⟨.GETPWBYUID, key⟩ = .error .malformedKey ↔
      ¬ ((key.getLast? = some 0 ∧ ¬ 0 ∈ key.dropLast) ∧
        atoi_u32 key.dropLast ≠ none)) ∧
    (handle_request db ⟨.GETGRBYGID, key⟩ = .error .malformedKey ↔
      ¬ ((key.getLast? = some 0 ∧ ¬ 0 ∈ key.dropLast) ∧
        atoi_u32 key.dropLast ≠ none)) := by
  constructor
  · simp only [handle_request, cstrFromBytesWithNul, parse_u32]
    by_cases hk : key.getLast? = some 0 ∧ ¬ 0 ∈ key.dropLast
    · rw [if_pos hk, ok_bind]
      cases hA : atoi_u32 key.dropLast with
      | none => simp [hk, error_bind]
      | some u =>
        cases hdb : db.userByUid u with
        | ok o =>
          simp only [ok_bind, liftLookup, hdb]
          simp [hk, serialize_user_ne_malformed o]
        | error e =>
          simp only [ok_bind, liftLookup, hdb]
          simp [hk, error_bind]
    · rw [if_neg hk, error_bind]
      simp [hk]
  · simp only [handle_request, cstrFromBytesWithNul, parse_u32]
    by_cases hk : key.getLast? = some 0 ∧ ¬ 0 ∈ key.dropLast
    · rw [if_pos hk, ok_bind]
      cases hA : atoi_u32 key.dropLast with
      | none => simp [hk, error_bind]
      | some u =>
        cases hdb : db.groupByGid u with
        | ok o =>
          simp only [ok_bind, liftLookup, hdb]
          simp [hk, serialize_group_ne_malformed o]
        | error e =>
          simp only [ok_bind, liftLookup, hdb]
          simp [hk, error_bind]
    · rw [if_neg hk, error_bind]
      simp [hk]

theorem serialize_user_nul_name (u : User) (h : 0 ∈ u.name) :
    serialize_user (some u) = .error .invalidFieldContent := by
  rw [serialize_user_some, if_pos h]

/-- C7 counterexample: a record with an oversize home directory that also
carries an embedded nul in its name is rejected with
`invalidFieldContent`, not `fieldTooLarge` — the nul checks run before the
length conversions, so the claim's unconditional "fails with
FieldTooLarge" is false. -/
theorem oversize_field_other_error :
    I32MAX < uBig.dir.length + 1 ∧
    serialize_user (some uBig) = .error .invalidFieldContent ∧
    serialize_user (some uBig) ≠ .error .fieldTooLarge := by
  have hmem : 0 ∈ uBig.name := List.mem_cons_self 0 []
  have hser := serialize_user_nul_name uBig hmem
  refine ⟨?_, hser, ?_⟩
  · show I32MAX < uBig.dir.length + 1
    rw [show uBig.dir = List.replicate 2147483648 47 from rfl, List.length_replicate]
    norm_num [I32MAX]
  · rw [hser]
    simp

end Nsncd
